import Mathlib

/-!
Verification of the memory-management / catalog / query-dispatch core of the LI3
repository against its natural-language specification.

The C sources are shallowly embedded: pure C functions become Lean functions, the
mutable structures (pools, hash tables, managers) become explicit state passed and
returned, and machine integers become `Nat`/`Int` with explicit `% 2 ^ w` where
overflow matters.  Components whose implementation files are not part of the
provided sources (pool.c, string_pool.c, reservation.c, query_instance_list.c,
query_type_list.c) are modelled from the specification; each such definition
carries a doc comment starting with `Modelled from the spec:`.  glib collaborators
(GHashTable, GArray sorting) are modelled by association lists and a
comparator-respecting sort.
-/

namespace LI3

/-! ## Byte strings and strcmp -/

/-- Content bytes of a C string (terminator excluded).  Null-termination of pool
copies is implicit: the arena stores each string's bytes followed by the
terminator, which carries no extra information in this model. -/
abbrev CStr := List Nat

/-- Sign-faithful model of libc `strcmp`: negative iff the first string is
lexicographically smaller, zero iff byte-equal, positive otherwise.  Only the
sign of `strcmp` is ever consumed by the embedded code. -/
def strcmp : CStr → CStr → Int
  | [], [] => 0
  | [], _ :: _ => -1
  | _ :: _, [] => 1
  | x :: xs, y :: ys => if x < y then -1 else if y < x then 1 else strcmp xs ys

/-! ## Query 7 comparator and statistics sort (q07.c) -/

/-- Structure `__q07_airport_median` from q07.c: an airport (by its printed code,
`airport_code_sprintf` output) and its departure delay median (`int64_t`). -/
structure AirportMedian where
  airport_code : CStr
  median : Int
deriving DecidableEq

/-- Conversion of a C `uint64_t` value to `gint` (32-bit signed int) as performed
by the `return crit1;` statement of the comparator: truncation to the low 32 bits
reinterpreted in two's complement. -/
def uint64_to_gint (u : Nat) : Int :=
  if u % 4294967296 < 2147483648 then ((u % 4294967296 : Nat) : Int)
  else ((u % 4294967296 : Nat) : Int) - 4294967296

/-- Embedding of `__q07_generate_statistics_airport_median_compare_func` from
q07.c: `uint64_t crit1 = b->median - a->median; if (crit1) return crit1;` then
`strcmp` of the printed airport codes.  The `int64_t` subtraction converted to
`uint64_t` is `(b.median - a.median) mod 2^64`; returning it as `gint` truncates
to 32 bits. -/
def q07_airport_median_compare (a b : AirportMedian) : Int :=
  let crit1 : Nat := ((b.median - a.median) % (18446744073709551616 : Int)).toNat
  if crit1 ≠ 0 then uint64_to_gint crit1
  else strcmp a.airport_code b.airport_code

/-- Boolean `a ≤ b` order induced by the q07 comparator (comparator result at
most zero), as consumed by `g_array_sort`. -/
def q07_le (a b : AirportMedian) : Bool := q07_airport_median_compare a b ≤ 0

/-- Insertion of one element into a list according to a boolean order, auxiliary
to the model of `g_array_sort`. -/
def insertLe {α : Type} (le : α → α → Bool) (x : α) : List α → List α
  | [] => [x]
  | y :: ys => if le x y then x :: y :: ys else y :: insertLe le x ys

/-- Comparator-respecting sort modelling `g_array_sort`: produces a permutation
of the input that is sorted whenever the comparator is a total preorder. -/
def sortLe {α : Type} (le : α → α → Bool) : List α → List α
  | [] => []
  | x :: xs => insertLe le x (sortLe le xs)

/-- Final step of `__q07_generate_statistics`: the `g_array_sort` call with
`__q07_generate_statistics_airport_median_compare_func` over the array of
per-airport medians (one entry per distinct airport, in the unspecified
`g_hash_table_foreach` order). -/
def q07_generate_statistics_sort (l : List AirportMedian) : List AirportMedian :=
  sortLe q07_le l

/-- Ordering asserted by the specification for the q07 statistics array: primary
metric (median) descending and, on exact median ties, airport identifier string
ascending. -/
def q07_spec_order (a b : AirportMedian) : Prop :=
  b.median < a.median ∨
    (a.median = b.median ∧ strcmp a.airport_code b.airport_code < 0)

instance (a b : AirportMedian) : Decidable (q07_spec_order a b) := by
  unfold q07_spec_order; infer_instance

/-! ## Query dispatcher (query_dispatcher.c, query_type.c) -/

/-- Database handle; opaque to the dispatcher, which only threads it through to
the callbacks. -/
abbrev Database := Nat

/-- Statistics object produced by a `generate_statistics` callback (a `void *`
in the C source); opaque to the dispatcher. -/
abbrev Stats := Nat

/-- Embedding of `query_instance_t`: its type index (`query_instance_get_type`)
and its type-erased argument payload. -/
structure QueryInstance where
  type : Nat
  argument : Nat
deriving DecidableEq

/-- Embedding of `query_type_t` from query_type.c: the behavior tuple consumed
by the dispatcher.  `parse_arguments` and the argument destructor are omitted
(never consulted by the dispatcher).  A `none` callback models a null function
pointer. -/
structure QueryType where
  generate_statistics : Option (Database → List QueryInstance → Stats)
  free_statistics : Option (Stats → Unit)
  execute : Database → Option Stats → QueryInstance → Nat → Int

/-- Observable call events of one dispatch, in program order: a
`generate_statistics` call (with the instance set it was handed and the
statistics object it returned), an `execute` call (with the statistics object it
was handed, the instance, the output sink and the returned status), and a
`free_statistics` call (with the statistics object it was handed). -/
inductive DispatchEvent where
  | genCall (db : Database) (instances : List QueryInstance) (result : Stats)
  | execCall (db : Database) (stats : Option Stats) (inst : QueryInstance)
      (output : Nat) (result : Int)
  | freeCall (stats : Option Stats)
deriving DecidableEq

/-- Modelled from the spec: `query_type_list_get_by_index` (query_type_list.c is
not among the sources): the registry maps a type identifier to one
implementation; out-of-range indices yield null. -/
def query_type_list_get_by_index (qtl : List QueryType) (i : Nat) : Option QueryType :=
  qtl[i]?

/-- Modelled from the spec: the partition of the instance list that
`query_instance_list_iter_types` (query_instance_list.c is not among the
sources) iterates over: the list is kept grouped so that same-type instances are
contiguous, and the callback is invoked once per maximal run of consecutive
same-type instances. -/
def query_instance_chunks : List QueryInstance → List (List QueryInstance)
  | [] => []
  | q :: qs =>
    match query_instance_chunks qs with
    | [] => [[q]]
    | c :: cs =>
      if c.head?.map QueryInstance.type = some q.type then (q :: c) :: cs
      else [q] :: c :: cs

/-- Execute loop of `__query_dispatcher_query_set_callback`: one `execute` call
per instance of the set, against the shared statistics, writing to
`outputs[i + j]`; the returned result is ignored. -/
def dispatcher_exec_events (db : Database) (ty : QueryType) (stats : Option Stats)
    (outputs : Nat → Nat) : Nat → List QueryInstance → List DispatchEvent
  | _, [] => []
  | i, q :: qs =>
    DispatchEvent.execCall db stats q (outputs i) (ty.execute db stats q (outputs i)) ::
      dispatcher_exec_events db ty stats outputs (i + 1) qs

/-- Embedding of `__query_dispatcher_query_set_callback`: looks the set's type
up by the first instance's type index (returning silently when unknown, without
advancing the output cursor), generates statistics when that callback is
non-null, executes every instance ignoring failures, advances the output cursor
by the set's size, and frees the statistics when that callback is non-null.
Returns the emitted call events together with the new output cursor. -/
def query_dispatcher_query_set_callback (db : Database) (qtl : List QueryType)
    (outputs : Nat → Nat) (i : Nat) (instances : List QueryInstance) :
    List DispatchEvent × Nat :=
  match instances.head?.bind fun q => query_type_list_get_by_index qtl q.type with
  | none => ([], i)
  | some ty =>
    let stats : Option Stats := ty.generate_statistics.map fun g => g db instances
    let genEvents : List DispatchEvent :=
      match ty.generate_statistics with
      | some g => [DispatchEvent.genCall db instances (g db instances)]
      | none => []
    let freeEvents : List DispatchEvent :=
      if ty.free_statistics.isSome then [DispatchEvent.freeCall stats] else []
    (genEvents ++ dispatcher_exec_events db ty stats outputs i instances ++ freeEvents,
      i + instances.length)

/-- Iteration of the dispatcher callback over the type-contiguous sets, threading
the processed-queries cursor `i` (field `i` of `query_dispatcher_data_t`). -/
def query_dispatcher_dispatch_chunks (db : Database) (qtl : List QueryType)
    (outputs : Nat → Nat) : Nat → List (List QueryInstance) → List DispatchEvent
  | _, [] => []
  | i, c :: cs =>
    let r := query_dispatcher_query_set_callback db qtl outputs i c
    r.1 ++ query_dispatcher_dispatch_chunks db qtl outputs r.2 cs

/-- Embedding of `query_dispatcher_dispatch_list`: iterates the grouped instance
list with `__query_dispatcher_query_set_callback`, cursor starting at zero, and
yields the sequence of callback invocations it performs. -/
def query_dispatcher_dispatch_list (db : Database) (l : List QueryInstance)
    (qtl : List QueryType) (outputs : Nat → Nat) : List DispatchEvent :=
  query_dispatcher_dispatch_chunks db qtl outputs 0 (query_instance_chunks l)

/-- Embedding of `query_dispatcher_dispatch_single`: builds a one-element
instance list and dispatches it with a one-element output array (only index 0 of
the output array is meaningful). -/
def query_dispatcher_dispatch_single (db : Database) (q : QueryInstance)
    (qtl : List QueryType) (output : Nat) : List DispatchEvent :=
  query_dispatcher_dispatch_list db [q] qtl fun _ => output

/-- Query type a type-contiguous set resolves to: registry lookup by the first
instance's type index. -/
def chunk_resolved_type (qtl : List QueryType) (c : List QueryInstance) : Option QueryType :=
  c.head?.bind fun q => query_type_list_get_by_index qtl q.type

/-- Whether a set resolves to a type with a non-null `generate_statistics`. -/
def chunk_has_gen (qtl : List QueryType) (c : List QueryInstance) : Bool :=
  match chunk_resolved_type qtl c with
  | some ty => ty.generate_statistics.isSome
  | none => false

/-- Whether a set resolves to a type with a non-null `free_statistics`. -/
def chunk_has_free (qtl : List QueryType) (c : List QueryInstance) : Bool :=
  match chunk_resolved_type qtl c with
  | some ty => ty.free_statistics.isSome
  | none => false

/-- Output-cursor advance contributed by one set (sets with unknown type do not
advance the cursor, exactly as in the C early return). -/
def chunk_advance (qtl : List QueryType) (i : Nat) (c : List QueryInstance) : Nat :=
  if (chunk_resolved_type qtl c).isSome then i + c.length else i

/-- Output-cursor advance contributed by a list of sets, in order. -/
def chunks_advance (qtl : List QueryType) (i : Nat) (cs : List (List QueryInstance)) : Nat :=
  cs.foldl (chunk_advance qtl) i

/-- Event classifier: `generate_statistics` calls. -/
def is_gen_event : DispatchEvent → Bool
  | DispatchEvent.genCall _ _ _ => true
  | _ => false

/-- Event classifier: `free_statistics` calls. -/
def is_free_event : DispatchEvent → Bool
  | DispatchEvent.freeCall _ => true
  | _ => false

/-- Instance of an `execute` event, if any. -/
def exec_inst_of : DispatchEvent → Option QueryInstance
  | DispatchEvent.execCall _ _ q _ _ => some q
  | _ => none

/-! ## String pool and deduplicating string pool (string_pool_no_duplicates.c) -/

/-- Modelled from the spec: the plain string pool (string_pool.c is not among
the sources) owns an arena of stored strings; handles are arena indices and stay
valid and unchanged for the pool's whole lifetime. -/
structure StringPool where
  arena : List CStr
deriving DecidableEq

/-- Modelled from the spec: `string_pool_create`: a fresh pool with an empty
arena (block capacity does not affect the observable contents). -/
def string_pool_create : StringPool := ⟨[]⟩

/-- Modelled from the spec: `string_pool_put` stores a null-terminated copy of
the input string contiguously in the arena and returns its (fresh) handle.
Allocation success is assumed; the caller-visible failure path is threaded
explicitly where a claim needs it. -/
def string_pool_put (p : StringPool) (s : CStr) : Nat × StringPool :=
  (p.arena.length, ⟨p.arena ++ [s]⟩)

/-- Bytes a string-pool handle points to, if the handle is live. -/
def string_pool_get (p : StringPool) (h : Nat) : Option CStr :=
  p.arena[h]?

/-- Content-keyed lookup table of the deduplicating pool (glib `GHashTable` with
`g_str_hash`/`g_str_equal`, modelled as an association list keyed by byte
content). -/
def cstr_table_lookup (t : List (CStr × Nat)) (s : CStr) : Option Nat :=
  (t.find? fun e => decide (e.1 = s)).map fun e => e.2

/-- Embedding of `struct string_pool_no_duplicates`: the backing string pool
plus the content-keyed table of already interned strings. -/
structure StringPoolNoDuplicates where
  strings : StringPool
  already_stored : List (CStr × Nat)
deriving DecidableEq

/-- Embedding of `string_pool_no_duplicates_create`: fresh plain pool, empty
lookup table. -/
def string_pool_no_duplicates_create : StringPoolNoDuplicates :=
  ⟨string_pool_create, []⟩

/-- Embedding of `string_pool_no_duplicates_put` from string_pool_no_duplicates.c:
probe the table by content; on a hit return the existing handle without touching
the arena; on a miss delegate to `string_pool_put` and register the new handle
under its (now stable) content. -/
def string_pool_no_duplicates_put (p : StringPoolNoDuplicates) (s : CStr) :
    Nat × StringPoolNoDuplicates :=
  match cstr_table_lookup p.already_stored s with
  | some h => (h, p)
  | none =>
    let r := string_pool_put p.strings s
    (r.1, ⟨r.2, (s, r.1) :: p.already_stored⟩)

/-- Bytes a deduplicating-pool handle points to, if live. -/
def string_pool_no_duplicates_get (p : StringPoolNoDuplicates) (h : Nat) : Option CStr :=
  string_pool_get p.strings h

/-- Well-formedness of a deduplicating pool (holds for every pool reachable from
`create` by `put`s): every table entry maps a content to a live handle holding
exactly that content. -/
def spnd_wf (p : StringPoolNoDuplicates) : Prop :=
  ∀ s h, cstr_table_lookup p.already_stored s = some h →
    string_pool_get p.strings h = some s

/-! ## Reservation type and reservation manager (reservation_manager.c) -/

/-- Modelled from the spec: `reservation_t` (reservation.c is not among the
sources): an identifier, two pool-owned string fields, scalar fields, and the
tombstone flag driven by `reservation_invalidate` / `reservation_is_valid`. -/
structure Reservation where
  id : Nat
  user_id : CStr
  hotel_name : CStr
  begin_date : Nat
  end_date : Nat
  price_per_night : Nat
  includes_breakfast : Bool
  rating : Nat
  valid : Bool
deriving DecidableEq

/-- Modelled from the spec: `reservation_invalidate` tombstones the entity in
place. -/
def reservation_invalidate (r : Reservation) : Reservation :=
  { r with valid := false }

/-- Modelled from the spec: `reservation_is_valid`, returning `0` for a valid
entity (the iteration wrapper calls the user callback exactly when this is 0). -/
def reservation_is_valid (r : Reservation) : Int :=
  if r.valid then 0 else 1

/-- Lookup in a glib `GHashTable` with `g_direct_hash`/`g_direct_equal`
(identifier keys), modelled as an association list. -/
def ghash_lookup (t : List (Nat × Nat)) (k : Nat) : Option Nat :=
  (t.find? fun e => decide (e.1 = k)).map fun e => e.2

/-- Insertion into a glib `GHashTable`: returns `true` and adds the entry when
the key was absent; returns `false` and replaces the stored value (last write
wins) when the key was present. -/
def ghash_insert (t : List (Nat × Nat)) (k v : Nat) : Bool × List (Nat × Nat) :=
  match ghash_lookup t k with
  | none => (true, (k, v) :: t)
  | some _ => (false, t.map fun e => if e.1 = k then (k, v) else e)

/-- Embedding of `struct reservation_manager`: the entity pool (append-only list
of reservation slots; pool.c slot indices are handles), the string pool, the
identifier index, and the trace of duplicate-identifier warnings written to
stderr (list of offending identifiers, in order). -/
structure ReservationManager where
  reservations : List Reservation
  strings : StringPool
  id_reservations_rel : List (Nat × Nat)
  warnings : List Nat
deriving DecidableEq

/-- Embedding of `reservation_manager_create`: empty pools, empty index. -/
def reservation_manager_create : ReservationManager :=
  ⟨[], string_pool_create, [], []⟩

/-- Embedding of `reservation_manager_add_reservation`.  The three `Bool`
parameters are the allocation oracle for the three fallible allocations of the C
code, in program order: `pool_put_item`, `string_pool_put` of the user id, and
`string_pool_put` of the hotel name.  On `pool_ok = false` the function returns
null with the manager untouched.  Otherwise the entity is copied into the pool;
both string copies are attempted; if both succeed the copy's string fields are
rewritten to the pool-owned copies (byte-equal contents), the identifier index
is updated (warning and overwrite on a duplicate), and the new handle is
returned; if either string copy fails, the already placed entity copy is
invalidated in place, the index is left unchanged, and null is returned. -/
def reservation_manager_add_reservation (m : ReservationManager) (r : Reservation)
    (pool_ok user_ok hotel_ok : Bool) : Option Nat × ReservationManager :=
  if pool_ok = false then (none, m)
  else
    let hidx := m.reservations.length
    let pool1 := m.reservations ++ [r]
    let su : Option Nat × StringPool :=
      if user_ok then
        let r1 := string_pool_put m.strings r.user_id
        (some r1.1, r1.2)
      else (none, m.strings)
    let sh : Option Nat × StringPool :=
      if hotel_ok then
        let r2 := string_pool_put su.2 r.hotel_name
        (some r2.1, r2.2)
      else (none, su.2)
    match su.1, sh.1 with
    | some _, some _ =>
      let ins := ghash_insert m.id_reservations_rel r.id hidx
      let warnings1 := if ins.1 then m.warnings else m.warnings ++ [r.id]
      (some hidx, ⟨pool1, sh.2, ins.2, warnings1⟩)
    | _, _ =>
      (none, ⟨pool1.set hidx (reservation_invalidate r), sh.2, m.id_reservations_rel,
        m.warnings⟩)

/-- Embedding of `reservation_manager_get_by_id`: identifier-index lookup,
yielding the handle of the stored entity (null on a miss). -/
def reservation_manager_get_by_id (m : ReservationManager) (id : Nat) : Option Nat :=
  ghash_lookup m.id_reservations_rel id

/-- Entity a reservation-manager handle refers to. -/
def reservation_manager_deref (m : ReservationManager) (h : Nat) : Option Reservation :=
  m.reservations[h]?

/-- Entities handed to the user callback by `reservation_manager_iter` /
`__reservation_manager_iter_callback`, in order: the wrapper forwards an entity
exactly when `reservation_is_valid` returns 0, and `pool_iter` stops right after
the first callback returning non-zero. -/
def reservation_iter_visited (f : Reservation → Int) : List Reservation → List Reservation
  | [] => []
  | r :: rs =>
    if reservation_is_valid r = 0 then
      r :: (if f r ≠ 0 then [] else reservation_iter_visited f rs)
    else reservation_iter_visited f rs

/-- Entities handed to the user callback when iterating a manager. -/
def reservation_manager_iter_visited (m : ReservationManager) (f : Reservation → Int) :
    List Reservation :=
  reservation_iter_visited f m.reservations

/-! ## Block pool (pool.h; pool.c modelled from the spec) -/

/-- Operations of a block-pool session: `alloc` reserves a slot (its `junk`
parameter models the arbitrary initial contents of uninitialized memory), `put`
copies a value into a fresh slot, `empty` bulk-resets the pool. -/
inductive PoolOp (α : Type) where
  | alloc (junk : α)
  | put (v : α)
  | empty
deriving DecidableEq

/-- Modelled from the spec: a block pool (pool.c is not among the sources; the
contract is pool.h plus §4.1): a growable ordered sequence of fixed-capacity
blocks of slots.  A handle is a (block index, slot index) pair. -/
structure Pool (α : Type) where
  block_capacity : Nat
  blocks : List (List α)
deriving DecidableEq

/-- Modelled from the spec: `pool_create` with an item type and block
capacity. -/
def pool_create (α : Type) (cap : Nat) : Pool α := ⟨cap, []⟩

/-- Slot allocation over the block sequence: fill the last block while it has
room, otherwise append one new block of the same capacity; existing blocks are
never moved or resized.  Returns the handle of the new slot and the new block
sequence. -/
def blocks_append {α : Type} (cap : Nat) (v : α) : List (List α) → (Nat × Nat) × List (List α)
  | [] => ((0, 0), [[v]])
  | [b] =>
    if b.length < cap then ((0, b.length), [b ++ [v]])
    else ((1, 0), [b, [v]])
  | b :: b2 :: bs =>
    let r := blocks_append cap v (b2 :: bs)
    ((r.1.1 + 1, r.1.2), b :: r.2)

/-- Modelled from the spec: `pool_put_item` copies a value into a freshly
allocated slot and returns its handle. -/
def pool_put_item {α : Type} (p : Pool α) (v : α) : (Nat × Nat) × Pool α :=
  let r := blocks_append p.block_capacity v p.blocks
  (r.1, ⟨p.block_capacity, r.2⟩)

/-- Modelled from the spec: `pool_alloc_item` reserves a fresh slot; the slot's
initial contents (uninitialized memory in C) are supplied by the oracle value. -/
def pool_alloc_item {α : Type} (p : Pool α) (junk : α) : (Nat × Nat) × Pool α :=
  pool_put_item p junk

/-- Modelled from the spec: `pool_empty` removes every element, invalidating all
previously issued handles (block storage reuse is not observable at this
level). -/
def pool_empty {α : Type} (p : Pool α) : Pool α :=
  ⟨p.block_capacity, []⟩

/-- Contents a pool handle refers to, when the handle is live. -/
def pool_deref {α : Type} (p : Pool α) (h : Nat × Nat) : Option α :=
  (p.blocks[h.1]?).bind fun b => b[h.2]?

/-- One pool operation applied to the pool state. -/
def pool_step {α : Type} (p : Pool α) : PoolOp α → Pool α
  | PoolOp.alloc junk => (pool_alloc_item p junk).2
  | PoolOp.put v => (pool_put_item p v).2
  | PoolOp.empty => pool_empty p

/-- A sequence of pool operations applied in order. -/
def pool_run {α : Type} (p : Pool α) : List (PoolOp α) → Pool α
  | [] => p
  | op :: ops => pool_run (pool_step p op) ops

/-! ## Auxiliary lemmas -/

theorem list_concat_set_length {α : Type} (l : List α) (a b : α) :
    (l ++ [a]).set l.length b = l ++ [b] := by
  induction l with
  | nil => rfl
  | cons x xs ih => simp [List.set, ih]

theorem ghash_lookup_replace (t : List (Nat × Nat)) (k v : Nat)
    (hw : (ghash_lookup t k).isSome) :
    ghash_lookup (t.map fun e => if e.1 = k then (k, v) else e) k = some v := by
  induction t with
  | nil => simp [ghash_lookup] at hw
  | cons e t ih =>
    by_cases hek : e.1 = k
    · simp [ghash_lookup, List.find?, hek]
    · rw [List.map_cons, if_neg hek, ghash_lookup,
        List.find?_cons_of_neg _ (by simpa using hek)]
      rw [ghash_lookup, List.find?_cons_of_neg _ (by simpa using hek)] at hw
      exact ih hw

theorem ghash_insert_lookup (t : List (Nat × Nat)) (k v : Nat) :
    ghash_lookup (ghash_insert t k v).2 k = some v := by
  unfold ghash_insert
  cases hl : ghash_lookup t k with
  | none => simp [ghash_lookup, List.find?]
  | some w => exact ghash_lookup_replace t k v (by simp [hl])

theorem ghash_insert_fst_of_dup (t : List (Nat × Nat)) (k v h0 : Nat)
    (hdup : ghash_lookup t k = some h0) : (ghash_insert t k v).1 = false := by
  unfold ghash_insert
  rw [hdup]

/-! ## C7: iteration skips tombstoned entities -/

theorem reservation_iter_visited_valid (f : Reservation → Int) :
    ∀ l : List Reservation, ∀ r ∈ reservation_iter_visited f l,
      reservation_is_valid r = 0 := by
  intro l
  induction l with
  | nil => intro r hr; simp [reservation_iter_visited] at hr
  | cons x xs ih =>
    intro r hr
    by_cases hv : reservation_is_valid x = 0
    · rw [reservation_iter_visited, if_pos hv] at hr
      rcases List.mem_cons.mp hr with h | h
      · rw [h]; exact hv
      · by_cases hs : f x ≠ 0
        · rw [if_pos hs] at h; simp at h
        · rw [if_neg hs] at h; exact ih r h
    · rw [reservation_iter_visited, if_neg hv] at hr
      exact ih r hr

theorem reservation_iter_visited_no_stop (f : Reservation → Int)
    (hf : ∀ r, f r = 0) :
    ∀ l : List Reservation,
      reservation_iter_visited f l = l.filter fun r => r.valid := by
  intro l
  induction l with
  | nil => rfl
  | cons x xs ih =>
    by_cases hx : x.valid
    · have hv : reservation_is_valid x = 0 := by simp [reservation_is_valid, hx]
      rw [reservation_iter_visited, if_pos hv, if_neg (by simp [hf x]), ih,
        List.filter_cons, if_pos (by simp [hx])]
    · have hv : ¬ reservation_is_valid x = 0 := by simp [reservation_is_valid, hx]
      rw [reservation_iter_visited, if_neg hv, ih, List.filter_cons,
        if_neg (by simp [hx])]

/-- C7: for every reservation catalog state and every iteration over it, the
user-supplied callback is never invoked on an entity marked invalid — every
entity handed to the callback satisfies the validity predicate
(`reservation_is_valid` returns 0) — and, when no callback stops the iteration
early, the visited entities are exactly the valid ones, in pool order
(tombstoned entities are skipped transparently). -/
theorem reservation_manager_iter_skips_invalid (m : ReservationManager)
    (f : Reservation → Int) :
    (∀ r ∈ reservation_manager_iter_visited m f, reservation_is_valid r = 0) ∧
    ((∀ r, f r = 0) →
      reservation_manager_iter_visited m f = m.reservations.filter fun r => r.valid) := by
  constructor
  · intro r hr
    exact reservation_iter_visited_valid f m.reservations r hr
  · intro hf
    exact reservation_iter_visited_no_stop f hf m.reservations

theorem reservation_manager_iter_skips_invalid_witness :
    (⟨7, [85], [72], 1, 2, 3, true, 4, true⟩ : Reservation) ∈
      reservation_manager_iter_visited
        ⟨[⟨7, [85], [72], 1, 2, 3, true, 4, true⟩,
          ⟨8, [86], [73], 1, 2, 3, false, 4, false⟩], ⟨[]⟩, [], []⟩ (fun _ => 0) ∧
    reservation_is_valid (⟨7, [85], [72], 1, 2, 3, true, 4, true⟩ : Reservation) = 0 :=
  ⟨by decide,
   (reservation_manager_iter_skips_invalid
      ⟨[⟨7, [85], [72], 1, 2, 3, true, 4, true⟩,
        ⟨8, [86], [73], 1, 2, 3, false, 4, false⟩], ⟨[]⟩, [], []⟩ (fun _ => 0)).1
      ⟨7, [85], [72], 1, 2, 3, true, 4, true⟩ (by decide)⟩

/-! ## C8: catalog round-trip -/

/-- C8: for every entity successfully added to the catalog (non-null result
from add, under any allocation-oracle outcome), a subsequent `get_by_id` with
the entity's identifier returns its handle, and the stored record agrees with
the added entity on all non-string fields while its pool-owned string fields
are byte-equal to the original strings. -/
theorem reservation_manager_add_get_roundtrip
    (m : ReservationManager) (e : Reservation) (pool_ok user_ok hotel_ok : Bool)
    (h : Nat) (m' : ReservationManager)
    (hadd : reservation_manager_add_reservation m e pool_ok user_ok hotel_ok =
      (some h, m')) :
    reservation_manager_get_by_id m' e.id = some h ∧
    ∃ r', reservation_manager_deref m' h = some r' ∧
      r'.id = e.id ∧ r'.begin_date = e.begin_date ∧ r'.end_date = e.end_date ∧
      r'.price_per_night = e.price_per_night ∧
      r'.includes_breakfast = e.includes_breakfast ∧ r'.rating = e.rating ∧
      r'.user_id = e.user_id ∧ r'.hotel_name = e.hotel_name := by
  cases pool_ok
  · simp [reservation_manager_add_reservation] at hadd
  · cases user_ok
    · simp [reservation_manager_add_reservation] at hadd
    · cases hotel_ok
      · simp [reservation_manager_add_reservation] at hadd
      · simp only [reservation_manager_add_reservation, Bool.true_eq_false,
          if_false, if_true, Prod.mk.injEq, Option.some.injEq] at hadd
        obtain ⟨hh, hm⟩ := hadd
        subst hh
        subst hm
        refine ⟨ghash_insert_lookup _ _ _, e, ?_, rfl, rfl, rfl, rfl, rfl, rfl, rfl, rfl⟩
        simp [reservation_manager_deref, List.getElem?_concat_length]

theorem reservation_manager_add_get_roundtrip_witness :
    reservation_manager_get_by_id
      (reservation_manager_add_reservation reservation_manager_create
        ⟨5, [85, 49], [71, 72], 1, 3, 50, true, 4, true⟩ true true true).2 5 = some 0 ∧
    ∃ r', reservation_manager_deref
      (reservation_manager_add_reservation reservation_manager_create
        ⟨5, [85, 49], [71, 72], 1, 3, 50, true, 4, true⟩ true true true).2 0 = some r' ∧
      r'.id = 5 ∧ r'.begin_date = 1 ∧ r'.end_date = 3 ∧
      r'.price_per_night = 50 ∧ r'.includes_breakfast = true ∧ r'.rating = 4 ∧
      r'.user_id = [85, 49] ∧ r'.hotel_name = [71, 72] :=
  reservation_manager_add_get_roundtrip reservation_manager_create
    ⟨5, [85, 49], [71, 72], 1, 3, 50, true, 4, true⟩ true true true 0
    (reservation_manager_add_reservation reservation_manager_create
      ⟨5, [85, 49], [71, 72], 1, 3, 50, true, 4, true⟩ true true true).2
    (by decide)

/-! ## C3: duplicate identifier is non-fatal, last write wins -/

/-- C3: adding a reservation whose identifier is already present in the
identifier index never produces a hard failure: the add still returns the newly
stored entity, the index entry is overwritten so the identifier maps to the most
recently added entity (last-write-wins), and a warning for that identifier is
logged. -/
theorem reservation_manager_add_duplicate_id
    (m : ReservationManager) (r : Reservation) (h0 : Nat)
    (hdup : ghash_lookup m.id_reservations_rel r.id = some h0) :
    ∃ h m', reservation_manager_add_reservation m r true true true = (some h, m') ∧
      reservation_manager_deref m' h = some r ∧
      reservation_manager_get_by_id m' r.id = some h ∧
      m'.warnings = m.warnings ++ [r.id] := by
  refine ⟨m.reservations.length,
    ⟨m.reservations ++ [r],
     (string_pool_put (string_pool_put m.strings r.user_id).2 r.hotel_name).2,
     (ghash_insert m.id_reservations_rel r.id m.reservations.length).2,
     m.warnings ++ [r.id]⟩, ?_, ?_, ghash_insert_lookup _ _ _, rfl⟩
  · simp [reservation_manager_add_reservation, string_pool_put,
      ghash_insert_fst_of_dup _ _ _ _ hdup]
  · simp [reservation_manager_deref, List.getElem?_concat_length]

theorem reservation_manager_add_duplicate_id_witness :
    ghash_lookup
      (reservation_manager_add_reservation reservation_manager_create
        ⟨5, [85, 49], [71, 72], 1, 3, 50, true, 4, true⟩ true true
        true).2.id_reservations_rel 5 = some 0 ∧
    (∃ h m', reservation_manager_add_reservation
        (reservation_manager_add_reservation reservation_manager_create
          ⟨5, [85, 49], [71, 72], 1, 3, 50, true, 4, true⟩ true true true).2
        ⟨5, [85, 50], [71, 73], 2, 4, 60, false, 3, true⟩ true true true = (some h, m') ∧
      reservation_manager_deref m' h =
        some ⟨5, [85, 50], [71, 73], 2, 4, 60, false, 3, true⟩ ∧
      reservation_manager_get_by_id m' 5 = some h ∧
      m'.warnings =
        (reservation_manager_add_reservation reservation_manager_create
          ⟨5, [85, 49], [71, 72], 1, 3, 50, true, 4, true⟩ true true
          true).2.warnings ++ [5]) :=
  ⟨by decide,
   reservation_manager_add_duplicate_id
     (reservation_manager_add_reservation reservation_manager_create
       ⟨5, [85, 49], [71, 72], 1, 3, 50, true, 4, true⟩ true true true).2
     ⟨5, [85, 50], [71, 73], 2, 4, 60, false, 3, true⟩ 0 (by decide)⟩

/-! ## C6: string-copy failure invalidates in place -/

/-- C6: if, while adding a reservation, copying one of its string fields (user
identifier or hotel name) into the string pool fails, then the entity copy
already placed in the entity pool is marked invalid in place (the slot stays in
the pool, holding the tombstoned copy), the identifier index is not updated, and
the add operation returns null. -/
theorem reservation_manager_add_string_failure
    (m : ReservationManager) (r : Reservation) (user_ok hotel_ok : Bool)
    (hfail : user_ok = false ∨ hotel_ok = false) :
    (reservation_manager_add_reservation m r true user_ok hotel_ok).1 = none ∧
    (reservation_manager_add_reservation m r true user_ok hotel_ok).2.reservations =
      m.reservations ++ [reservation_invalidate r] ∧
    reservation_is_valid (reservation_invalidate r) = 1 ∧
    (reservation_manager_add_reservation m r true user_ok hotel_ok).2.id_reservations_rel =
      m.id_reservations_rel := by
  cases user_ok
  · cases hotel_ok <;>
      simp [reservation_manager_add_reservation, list_concat_set_length,
        reservation_invalidate, reservation_is_valid]
  · cases hotel_ok
    · simp [reservation_manager_add_reservation, list_concat_set_length,
        reservation_invalidate, reservation_is_valid]
    · rcases hfail with h | h <;> simp at h

theorem reservation_manager_add_string_failure_witness :
    (reservation_manager_add_reservation reservation_manager_create
      ⟨5, [85, 49], [71, 72], 1, 3, 50, true, 4, true⟩ true false true).1 = none ∧
    (reservation_manager_add_reservation reservation_manager_create
      ⟨5, [85, 49], [71, 72], 1, 3, 50, true, 4, true⟩ true false true).2.reservations =
      [] ++ [reservation_invalidate ⟨5, [85, 49], [71, 72], 1, 3, 50, true, 4, true⟩] ∧
    reservation_is_valid
      (reservation_invalidate ⟨5, [85, 49], [71, 72], 1, 3, 50, true, 4, true⟩) = 1 ∧
    (reservation_manager_add_reservation reservation_manager_create
      ⟨5, [85, 49], [71, 72], 1, 3, 50, true, 4, true⟩ true false
      true).2.id_reservations_rel = [] :=
  reservation_manager_add_string_failure reservation_manager_create
    ⟨5, [85, 49], [71, 72], 1, 3, 50, true, 4, true⟩ false true (Or.inl rfl)

/-! ## C2: deduplicating string pool -/

theorem cstr_table_lookup_cons (s' : CStr) (h' : Nat) (t : List (CStr × Nat)) (s : CStr) :
    cstr_table_lookup ((s', h') :: t) s =
      if s' = s then some h' else cstr_table_lookup t s := by
  by_cases he : s' = s <;> simp [cstr_table_lookup, List.find?, he]

theorem list_getElem?_append_of_some {α : Type} {l l2 : List α} {i : Nat} {a : α}
    (hx : l[i]? = some a) : (l ++ l2)[i]? = some a := by
  induction l generalizing i with
  | nil => simp at hx
  | cons x xs ih =>
    cases i with
    | zero => simpa using hx
    | succ n => simpa using ih (by simpa using hx)

theorem spnd_put_spec (p : StringPoolNoDuplicates) (hwf : spnd_wf p) (s : CStr) :
    string_pool_no_duplicates_get (string_pool_no_duplicates_put p s).2
      (string_pool_no_duplicates_put p s).1 = some s ∧
    spnd_wf (string_pool_no_duplicates_put p s).2 ∧
    cstr_table_lookup (string_pool_no_duplicates_put p s).2.already_stored s =
      some (string_pool_no_duplicates_put p s).1 ∧
    (∀ h c, string_pool_no_duplicates_get p h = some c →
      string_pool_no_duplicates_get (string_pool_no_duplicates_put p s).2 h = some c) := by
  cases hl : cstr_table_lookup p.already_stored s with
  | some h =>
    have hput : string_pool_no_duplicates_put p s = (h, p) := by
      simp [string_pool_no_duplicates_put, hl]
    rw [hput]
    exact ⟨hwf s h hl, hwf, hl, fun h c hc => hc⟩
  | none =>
    simp only [string_pool_no_duplicates_put, hl, string_pool_put]
    refine ⟨?_, ?_, ?_, ?_⟩
    · simp [string_pool_no_duplicates_get, string_pool_get, List.getElem?_concat_length]
    · intro s' h' hlk
      rw [cstr_table_lookup_cons] at hlk
      by_cases he : s = s'
      · rw [if_pos he] at hlk
        cases hlk
        simp [string_pool_get, ← he, List.getElem?_concat_length]
      · rw [if_neg he] at hlk
        exact list_getElem?_append_of_some (hwf s' h' hlk)
    · simp [cstr_table_lookup_cons]
    · intro h c hc
      exact list_getElem?_append_of_some hc

/-- C2: on a well-formed deduplicating string pool (any pool reachable from
`create` by `put` calls), inserting byte-equal strings one after the other
returns the identical handle and leaves the pool — arena included — completely
unchanged; inserting byte-different strings returns distinct handles, and after
both insertions each handle still decodes to exactly the originally inserted
bytes. -/
theorem string_pool_no_duplicates_dedup (p : StringPoolNoDuplicates)
    (hwf : spnd_wf p) (s1 s2 : CStr) :
    (s1 = s2 →
      (string_pool_no_duplicates_put (string_pool_no_duplicates_put p s1).2 s2).1 =
        (string_pool_no_duplicates_put p s1).1 ∧
      (string_pool_no_duplicates_put (string_pool_no_duplicates_put p s1).2 s2).2 =
        (string_pool_no_duplicates_put p s1).2) ∧
    (s1 ≠ s2 →
      (string_pool_no_duplicates_put (string_pool_no_duplicates_put p s1).2 s2).1 ≠
        (string_pool_no_duplicates_put p s1).1 ∧
      string_pool_no_duplicates_get
        (string_pool_no_duplicates_put (string_pool_no_duplicates_put p s1).2 s2).2
        (string_pool_no_duplicates_put p s1).1 = some s1 ∧
      string_pool_no_duplicates_get
        (string_pool_no_duplicates_put (string_pool_no_duplicates_put p s1).2 s2).2
        (string_pool_no_duplicates_put (string_pool_no_duplicates_put p s1).2 s2).1 =
        some s2) := by
  obtain ⟨hget1, hwf1, hlk1, _⟩ := spnd_put_spec p hwf s1
  constructor
  · intro he
    subst he
    rw [string_pool_no_duplicates_put, hlk1]
    exact ⟨rfl, rfl⟩
  · intro hne
    obtain ⟨hget2, _, _, hstab2⟩ := spnd_put_spec (string_pool_no_duplicates_put p s1).2 hwf1 s2
    have hs1 := hstab2 (string_pool_no_duplicates_put p s1).1 s1 hget1
    refine ⟨?_, hs1, hget2⟩
    intro heq
    rw [heq] at hget2
    rw [hget2] at hs1
    exact hne (Option.some.inj hs1).symm

theorem string_pool_no_duplicates_dedup_witness :
    (string_pool_no_duplicates_put
        (string_pool_no_duplicates_put string_pool_no_duplicates_create [65]).2 [66]).1 ≠
      (string_pool_no_duplicates_put string_pool_no_duplicates_create [65]).1 ∧
    string_pool_no_duplicates_get
      (string_pool_no_duplicates_put
        (string_pool_no_duplicates_put string_pool_no_duplicates_create [65]).2 [66]).2
      (string_pool_no_duplicates_put string_pool_no_duplicates_create [65]).1 = some [65] ∧
    string_pool_no_duplicates_get
      (string_pool_no_duplicates_put
        (string_pool_no_duplicates_put string_pool_no_duplicates_create [65]).2 [66]).2
      (string_pool_no_duplicates_put
        (string_pool_no_duplicates_put string_pool_no_duplicates_create [65]).2 [66]).1 =
      some [66] :=
  (string_pool_no_duplicates_dedup string_pool_no_duplicates_create
    (fun s h hc => absurd hc (by simp [cstr_table_lookup, string_pool_no_duplicates_create])) [65] [66]).2 (by decide)

/-! ## C9: block-pool handle stability -/

theorem blocks_append_getElem {α : Type} (cap : Nat) (v : α) :
    ∀ (bs : List (List α)) (i : Nat) (b : List α), bs[i]? = some b →
      ∃ t, (blocks_append cap v bs).2[i]? = some (b ++ t) := by
  intro bs
  induction bs with
  | nil => intro i b h; simp at h
  | cons x xs ih =>
    intro i b h
    cases xs with
    | nil =>
      cases i with
      | zero =>
        simp at h
        subst h
        by_cases hc : x.length < cap
        · exact ⟨[v], by simp [blocks_append, hc]⟩
        · exact ⟨[], by simp [blocks_append, hc]⟩
      | succ n => simp at h
    | cons y ys =>
      cases i with
      | zero =>
        simp at h
        subst h
        exact ⟨[], by simp [blocks_append]⟩
      | succ n =>
        obtain ⟨t, ht⟩ := ih n b (by simpa using h)
        exact ⟨t, by simpa [blocks_append] using ht⟩

theorem blocks_append_fresh {α : Type} (cap : Nat) (v : α) :
    ∀ bs : List (List α),
      ((blocks_append cap v bs).2[(blocks_append cap v bs).1.1]?).bind
        (fun b => b[(blocks_append cap v bs).1.2]?) = some v := by
  intro bs
  induction bs with
  | nil => simp [blocks_append]
  | cons x xs ih =>
    cases xs with
    | nil =>
      by_cases hc : x.length < cap
      · simp [blocks_append, hc, List.getElem?_concat_length]
      · simp [blocks_append, hc]
    | cons y ys => simpa [blocks_append] using ih

theorem blocks_append_length {α : Type} (cap : Nat) (v : α) :
    ∀ bs : List (List α),
      (blocks_append cap v bs).2.length = bs.length ∨
      (blocks_append cap v bs).2.length = bs.length + 1 := by
  intro bs
  induction bs with
  | nil => simp [blocks_append]
  | cons x xs ih =>
    cases xs with
    | nil =>
      by_cases hc : x.length < cap
      · simp [blocks_append, hc]
      · simp [blocks_append, hc]
    | cons y ys =>
      rcases ih with h | h
      · exact Or.inl (by simp [blocks_append, h])
      · exact Or.inr (by simp [blocks_append, h])

theorem pool_step_deref {α : Type} (p : Pool α) (op : PoolOp α) (h : Nat × Nat) (v : α)
    (hop : op ≠ PoolOp.empty) (hd : pool_deref p h = some v) :
    pool_deref (pool_step p op) h = some v := by
  obtain ⟨b, hb, hbv⟩ := Option.bind_eq_some.mp hd
  have key : ∀ w : α, pool_deref (pool_put_item p w).2 h = some v := by
    intro w
    obtain ⟨t, ht⟩ := blocks_append_getElem p.block_capacity w p.blocks h.1 b hb
    rw [pool_deref, pool_put_item]
    rw [ht]
    exact Option.bind_eq_some.mpr ⟨b ++ t, rfl, list_getElem?_append_of_some hbv⟩
  cases op with
  | alloc junk => exact key junk
  | put w => exact key w
  | empty => exact absurd rfl hop

/-- C9: for every sequence of `alloc_item`/`put_item` operations on a block pool
in which `empty` is never called, every dereferenceable handle remains
dereferenceable with unchanged contents after any number of later operations; a
freshly returned handle immediately dereferences to the stored value; and pool
growth never moves or truncates an existing block (each old block index still
holds the old block, possibly extended in place within its capacity) and at most
appends one new block per allocation. -/
theorem pool_handle_stability {α : Type} :
    (∀ (p : Pool α) (h : Nat × Nat) (v : α) (ops : List (PoolOp α)),
      pool_deref p h = some v → PoolOp.empty ∉ ops →
      pool_deref (pool_run p ops) h = some v) ∧
    (∀ (p : Pool α) (v : α),
      pool_deref (pool_put_item p v).2 (pool_put_item p v).1 = some v) ∧
    (∀ (p : Pool α) (v : α) (i : Nat) (b : List α), p.blocks[i]? = some b →
      ∃ t, (pool_put_item p v).2.blocks[i]? = some (b ++ t)) ∧
    (∀ (p : Pool α) (v : α),
      (pool_put_item p v).2.blocks.length = p.blocks.length ∨
      (pool_put_item p v).2.blocks.length = p.blocks.length + 1) := by
  refine ⟨?_, ?_, ?_, ?_⟩
  · intro p h v ops hd hne
    induction ops generalizing p with
    | nil => exact hd
    | cons op ops ih =>
      have hop : op ≠ PoolOp.empty := fun he => hne (by rw [he]; exact List.mem_cons_self _ _)
      exact ih (pool_step p op) (pool_step_deref p op h v hop hd)
        (fun hm => hne (List.mem_cons_of_mem _ hm))
  · intro p v
    exact blocks_append_fresh p.block_capacity v p.blocks
  · intro p v i b hb
    exact blocks_append_getElem p.block_capacity v p.blocks i b hb
  · intro p v
    exact blocks_append_length p.block_capacity v p.blocks

theorem pool_handle_stability_witness :
    pool_deref (⟨2, [[10, 20], [30]]⟩ : Pool Nat) (0, 1) = some 20 ∧
    PoolOp.empty ∉ ([PoolOp.put 7, PoolOp.alloc 9] : List (PoolOp Nat)) ∧
    pool_deref (pool_run (⟨2, [[10, 20], [30]]⟩ : Pool Nat)
      [PoolOp.put 7, PoolOp.alloc 9]) (0, 1) = some 20 :=
  ⟨by decide, by decide,
   pool_handle_stability.1 ⟨2, [[10, 20], [30]]⟩ (0, 1) 20
     [PoolOp.put 7, PoolOp.alloc 9] (by decide) (by decide)⟩

/-! ## Dispatcher lemmas shared by C1, C5 and C10 -/

theorem dispatcher_exec_events_insts (db : Database) (ty : QueryType)
    (stats : Option Stats) (outputs : Nat → Nat) :
    ∀ (i : Nat) (qs : List QueryInstance),
      (dispatcher_exec_events db ty stats outputs i qs).filterMap exec_inst_of = qs := by
  intro i qs
  induction qs generalizing i with
  | nil => rfl
  | cons q qs ih => simp [dispatcher_exec_events, List.filterMap, exec_inst_of, ih]

theorem dispatcher_exec_events_filter_gen (db : Database) (ty : QueryType)
    (stats : Option Stats) (outputs : Nat → Nat) :
    ∀ (i : Nat) (qs : List QueryInstance),
      (dispatcher_exec_events db ty stats outputs i qs).filter is_gen_event = [] := by
  intro i qs
  induction qs generalizing i with
  | nil => rfl
  | cons q qs ih => simp [dispatcher_exec_events, List.filter, is_gen_event, ih]

theorem dispatcher_exec_events_filter_free (db : Database) (ty : QueryType)
    (stats : Option Stats) (outputs : Nat → Nat) :
    ∀ (i : Nat) (qs : List QueryInstance),
      (dispatcher_exec_events db ty stats outputs i qs).filter is_free_event = [] := by
  intro i qs
  induction qs generalizing i with
  | nil => rfl
  | cons q qs ih => simp [dispatcher_exec_events, List.filter, is_free_event, ih]

theorem set_callback_of_none (db : Database) (qtl : List QueryType) (outputs : Nat → Nat)
    (i : Nat) (c : List QueryInstance) (h : chunk_resolved_type qtl c = none) :
    query_dispatcher_query_set_callback db qtl outputs i c = ([], i) := by
  rw [chunk_resolved_type] at h
  simp [query_dispatcher_query_set_callback, h]

theorem set_callback_of_some (db : Database) (qtl : List QueryType) (outputs : Nat → Nat)
    (i : Nat) (c : List QueryInstance) (ty : QueryType)
    (h : chunk_resolved_type qtl c = some ty) :
    query_dispatcher_query_set_callback db qtl outputs i c =
      ((match ty.generate_statistics with
        | some g => [DispatchEvent.genCall db c (g db c)]
        | none => []) ++
       dispatcher_exec_events db ty (ty.generate_statistics.map fun g => g db c) outputs i c ++
       (if ty.free_statistics.isSome then
          [DispatchEvent.freeCall (ty.generate_statistics.map fun g => g db c)]
        else []),
       i + c.length) := by
  rw [chunk_resolved_type] at h
  simp [query_dispatcher_query_set_callback, h]

theorem set_callback_count_gen (db : Database) (qtl : List QueryType) (outputs : Nat → Nat)
    (i : Nat) (c : List QueryInstance) :
    ((query_dispatcher_query_set_callback db qtl outputs i c).1.filter is_gen_event).length =
      if chunk_has_gen qtl c then 1 else 0 := by
  cases hres : chunk_resolved_type qtl c with
  | none => rw [set_callback_of_none db qtl outputs i c hres, chunk_has_gen, hres]; rfl
  | some ty =>
    rw [set_callback_of_some db qtl outputs i c ty hres, chunk_has_gen, hres]
    cases hg : ty.generate_statistics with
    | none =>
      simp [List.filter_append, dispatcher_exec_events_filter_gen, is_gen_event,
        apply_ite (List.filter is_gen_event), apply_ite List.length, hg]
    | some g =>
      simp [List.filter_append, dispatcher_exec_events_filter_gen, is_gen_event,
        apply_ite (List.filter is_gen_event), apply_ite List.length, hg]

theorem set_callback_count_free (db : Database) (qtl : List QueryType) (outputs : Nat → Nat)
    (i : Nat) (c : List QueryInstance) :
    ((query_dispatcher_query_set_callback db qtl outputs i c).1.filter is_free_event).length =
      if chunk_has_free qtl c then 1 else 0 := by
  cases hres : chunk_resolved_type qtl c with
  | none => rw [set_callback_of_none db qtl outputs i c hres, chunk_has_free, hres]; rfl
  | some ty =>
    rw [set_callback_of_some db qtl outputs i c ty hres, chunk_has_free, hres]
    cases hg : ty.generate_statistics <;> cases hf : ty.free_statistics <;>
      simp [List.filter_append, dispatcher_exec_events_filter_free, is_free_event,
        apply_ite (List.filter is_free_event), apply_ite List.length, hg, hf]

theorem set_callback_exec_insts (db : Database) (qtl : List QueryType) (outputs : Nat → Nat)
    (i : Nat) (c : List QueryInstance) :
    (query_dispatcher_query_set_callback db qtl outputs i c).1.filterMap exec_inst_of =
      if (chunk_resolved_type qtl c).isSome then c else [] := by
  cases hres : chunk_resolved_type qtl c with
  | none => rw [set_callback_of_none db qtl outputs i c hres]; rfl
  | some ty =>
    rw [set_callback_of_some db qtl outputs i c ty hres]
    cases hg : ty.generate_statistics with
    | none =>
      simp [List.filterMap_append, dispatcher_exec_events_insts, exec_inst_of,
        apply_ite (List.filterMap exec_inst_of)]
    | some g =>
      simp [List.filterMap_append, dispatcher_exec_events_insts, exec_inst_of,
        apply_ite (List.filterMap exec_inst_of)]

theorem set_callback_snd (db : Database) (qtl : List QueryType) (outputs : Nat → Nat)
    (i : Nat) (c : List QueryInstance) :
    (query_dispatcher_query_set_callback db qtl outputs i c).2 = chunk_advance qtl i c := by
  cases hres : chunk_resolved_type qtl c with
  | none => rw [set_callback_of_none db qtl outputs i c hres, chunk_advance, hres]; rfl
  | some ty => rw [set_callback_of_some db qtl outputs i c ty hres, chunk_advance, hres]; rfl

theorem dispatch_chunks_count_gen (db : Database) (qtl : List QueryType)
    (outputs : Nat → Nat) :
    ∀ (cs : List (List QueryInstance)) (i : Nat),
      ((query_dispatcher_dispatch_chunks db qtl outputs i cs).filter is_gen_event).length =
        cs.countP (chunk_has_gen qtl) := by
  intro cs
  induction cs with
  | nil => intro i; rfl
  | cons c cs ih =>
    intro i
    rw [query_dispatcher_dispatch_chunks, List.filter_append, List.length_append,
      set_callback_count_gen, ih, List.countP_cons]
    omega

theorem dispatch_chunks_count_free (db : Database) (qtl : List QueryType)
    (outputs : Nat → Nat) :
    ∀ (cs : List (List QueryInstance)) (i : Nat),
      ((query_dispatcher_dispatch_chunks db qtl outputs i cs).filter is_free_event).length =
        cs.countP (chunk_has_free qtl) := by
  intro cs
  induction cs with
  | nil => intro i; rfl
  | cons c cs ih =>
    intro i
    rw [query_dispatcher_dispatch_chunks, List.filter_append, List.length_append,
      set_callback_count_free, ih, List.countP_cons]
    omega

theorem dispatch_chunks_exec_insts (db : Database) (qtl : List QueryType)
    (outputs : Nat → Nat) :
    ∀ (cs : List (List QueryInstance)) (i : Nat),
      (query_dispatcher_dispatch_chunks db qtl outputs i cs).filterMap exec_inst_of =
        (cs.filter fun c => (chunk_resolved_type qtl c).isSome).flatten := by
  intro cs
  induction cs with
  | nil => intro i; rfl
  | cons c cs ih =>
    intro i
    rw [query_dispatcher_dispatch_chunks, List.filterMap_append, set_callback_exec_insts,
      ih, List.filter_cons]
    cases hres : (chunk_resolved_type qtl c).isSome with
    | true => simp
    | false => simp

theorem dispatch_chunks_append (db : Database) (qtl : List QueryType)
    (outputs : Nat → Nat) :
    ∀ (cs1 cs2 : List (List QueryInstance)) (i : Nat),
      query_dispatcher_dispatch_chunks db qtl outputs i (cs1 ++ cs2) =
        query_dispatcher_dispatch_chunks db qtl outputs i cs1 ++
        query_dispatcher_dispatch_chunks db qtl outputs (chunks_advance qtl i cs1) cs2 := by
  intro cs1
  induction cs1 with
  | nil => intro cs2 i; rfl
  | cons c cs ih =>
    intro cs2 i
    rw [List.cons_append, query_dispatcher_dispatch_chunks,
      query_dispatcher_dispatch_chunks, ih, List.append_assoc, set_callback_snd]
    rfl

/-! ## C5: an execute failure stops nothing -/

/-- C5: the sequence of instances handed to `execute` during a dispatch is
exactly the concatenation, in order, of every type-contiguous set whose type is
registered — for arbitrary `execute` callbacks, hence in particular when some
instance's `execute` returns a non-zero (failure) status: dispatching still
executes every remaining instance of that set exactly once and then continues
with the following sets. -/
theorem dispatcher_executes_all_despite_failures (db : Database) (l : List QueryInstance)
    (qtl : List QueryType) (outputs : Nat → Nat) :
    (query_dispatcher_dispatch_list db l qtl outputs).filterMap exec_inst_of =
      ((query_instance_chunks l).filter fun c =>
        (chunk_resolved_type qtl c).isSome).flatten :=
  dispatch_chunks_exec_insts db qtl outputs (query_instance_chunks l) 0

/-! ## C10: single dispatch refines list dispatch -/

/-- C10: dispatching one parsed query instance through
`query_dispatcher_dispatch_single` performs exactly the same
`generate_statistics`, `execute` and `free_statistics` calls as dispatching a
one-element instance list through `query_dispatcher_dispatch_list` with any
output array whose first entry is the single call's output sink. -/
theorem dispatch_single_equiv_dispatch_list (db : Database) (q : QueryInstance)
    (qtl : List QueryType) (output : Nat) (outputs : Nat → Nat)
    (h : outputs 0 = output) :
    query_dispatcher_dispatch_single db q qtl output =
      query_dispatcher_dispatch_list db [q] qtl outputs := by
  have key : query_dispatcher_query_set_callback db qtl (fun _ => output) 0 [q] =
      query_dispatcher_query_set_callback db qtl outputs 0 [q] := by
    cases hres : chunk_resolved_type qtl [q] with
    | none =>
      rw [set_callback_of_none db qtl (fun _ => output) 0 [q] hres,
        set_callback_of_none db qtl outputs 0 [q] hres]
    | some ty =>
      rw [set_callback_of_some db qtl (fun _ => output) 0 [q] ty hres,
        set_callback_of_some db qtl outputs 0 [q] ty hres]
      simp [dispatcher_exec_events, h]
  show query_dispatcher_dispatch_chunks db qtl (fun _ => output) 0 [[q]] =
    query_dispatcher_dispatch_chunks db qtl outputs 0 [[q]]
  simp only [query_dispatcher_dispatch_chunks]
  rw [key]

theorem dispatch_single_equiv_dispatch_list_witness :
    query_dispatcher_dispatch_single 0 ⟨0, 4⟩
      [⟨some fun _ qs => qs.length, some fun _ => (), fun _ _ _ _ => 1⟩] 3 =
      query_dispatcher_dispatch_list 0 [⟨0, 4⟩]
        [⟨some fun _ qs => qs.length, some fun _ => (), fun _ _ _ _ => 1⟩]
        (fun j => j + 3) :=
  dispatch_single_equiv_dispatch_list 0 ⟨0, 4⟩
    [⟨some fun _ qs => qs.length, some fun _ => (), fun _ _ _ _ => 1⟩] 3
    (fun j => j + 3) rfl

/-! ## C1: one statistics pass per type-contiguous partition -/

/-- C1 counterexample: a query type whose `generate_statistics` is non-null but
whose `free_statistics` is null.  Dispatching one instance of it takes the
statistics-generation path (one `generate_statistics` call is made), yet no
`free_statistics` call ever happens, contradicting the claim that dispatch
"finally calls free_statistics once on that object" for every type with a
non-null `generate_statistics`. -/
theorem dispatcher_no_free_call_for_null_free_statistics :
    ((query_dispatcher_dispatch_list 0 [⟨0, 0⟩]
        [⟨some (fun _ _ => 5), none, fun _ _ _ _ => 0⟩] (fun _ => 0)).filter
      is_gen_event).length = 1 ∧
    ((query_dispatcher_dispatch_list 0 [⟨0, 0⟩]
        [⟨some (fun _ _ => 5), none, fun _ _ _ _ => 0⟩] (fun _ => 0)).filter
      is_free_event).length = 0 := by
  decide

/-- C1 (amended): dispatching an instance list calls `generate_statistics`
exactly once per type-contiguous partition whose registered type has a non-null
`generate_statistics` (not once per instance), calls `free_statistics` exactly
once per partition whose registered type has a non-null `free_statistics`, and,
for every partition whose registered type has a non-null `generate_statistics`,
the dispatch trace contains the contiguous segment: one `generate_statistics`
call over the whole partition, then one `execute` call per instance of the
partition against the shared statistics object, followed by one
`free_statistics` call on that same object exactly when the type's
`free_statistics` callback is non-null (and by no free call when it is null —
the code guards the free with its own null check, which is the sole amendment
to the claim). -/
theorem dispatcher_statistics_once_per_partition (db : Database) (qtl : List QueryType)
    (outputs : Nat → Nat) (l : List QueryInstance) :
    ((query_dispatcher_dispatch_list db l qtl outputs).filter is_gen_event).length =
      (query_instance_chunks l).countP (chunk_has_gen qtl) ∧
    ((query_dispatcher_dispatch_list db l qtl outputs).filter is_free_event).length =
      (query_instance_chunks l).countP (chunk_has_free qtl) ∧
    (∀ c ∈ query_instance_chunks l, ∀ ty g,
      chunk_resolved_type qtl c = some ty →
      ty.generate_statistics = some g →
      ∃ i pre post,
        query_dispatcher_dispatch_list db l qtl outputs =
          pre ++ (DispatchEvent.genCall db c (g db c) ::
            (dispatcher_exec_events db ty (some (g db c)) outputs i c ++
             (if ty.free_statistics.isSome then
                [DispatchEvent.freeCall (some (g db c))]
              else []))) ++ post) := by
  refine ⟨dispatch_chunks_count_gen db qtl outputs _ 0,
    dispatch_chunks_count_free db qtl outputs _ 0, ?_⟩
  intro c hc ty g hres hg
  obtain ⟨s, t, hst⟩ := List.append_of_mem hc
  refine ⟨chunks_advance qtl 0 s, query_dispatcher_dispatch_chunks db qtl outputs 0 s,
    query_dispatcher_dispatch_chunks db qtl outputs
      (chunks_advance qtl 0 s + c.length) t, ?_⟩
  show query_dispatcher_dispatch_chunks db qtl outputs 0 (query_instance_chunks l) = _
  rw [hst, dispatch_chunks_append, query_dispatcher_dispatch_chunks,
    set_callback_of_some db qtl outputs _ c ty hres]
  simp [hg, List.append_assoc]

theorem dispatcher_statistics_once_per_partition_witness :
    [⟨0, 1⟩, ⟨0, 2⟩] ∈ query_instance_chunks [⟨0, 1⟩, ⟨0, 2⟩] ∧
    ∃ i pre post,
      query_dispatcher_dispatch_list 0 [⟨0, 1⟩, ⟨0, 2⟩]
          [⟨some (fun _ qs => qs.length), some (fun _ => ()), fun _ _ _ _ => 1⟩]
          (fun j => j) =
        pre ++ (DispatchEvent.genCall 0 [⟨0, 1⟩, ⟨0, 2⟩] 2 ::
          (dispatcher_exec_events 0
             ⟨some (fun _ qs => qs.length), some (fun _ => ()), fun _ _ _ _ => 1⟩
             (some 2) (fun j => j) i [⟨0, 1⟩, ⟨0, 2⟩] ++
           [DispatchEvent.freeCall (some 2)])) ++ post :=
  ⟨by decide,
   (dispatcher_statistics_once_per_partition 0
      [⟨some (fun _ qs => qs.length), some (fun _ => ()), fun _ _ _ _ => 1⟩]
      (fun j => j) [⟨0, 1⟩, ⟨0, 2⟩]).2.2 [⟨0, 1⟩, ⟨0, 2⟩] (by decide)
      ⟨some (fun _ qs => qs.length), some (fun _ => ()), fun _ _ _ _ => 1⟩
      (fun _ qs => qs.length) rfl rfl⟩

/-! ## C4: ordering of the q07 statistics array -/

theorem strcmp_swap : ∀ a b : CStr, strcmp b a = -strcmp a b := by
  intro a
  induction a with
  | nil => intro b; cases b <;> simp [strcmp]
  | cons x xs ih =>
    intro b
    cases b with
    | nil => simp [strcmp]
    | cons y ys =>
      simp only [strcmp]
      rcases Nat.lt_trichotomy x y with h | h | h
      · simp [h, Nat.lt_asymm h, Nat.ne_of_lt h]
      · subst h
        simp [Nat.lt_irrefl, ih]
      · simp [h, Nat.lt_asymm h, Nat.ne_of_lt h]

theorem strcmp_eq_zero_iff : ∀ a b : CStr, strcmp a b = 0 ↔ a = b := by
  intro a
  induction a with
  | nil => intro b; cases b <;> simp [strcmp]
  | cons x xs ih =>
    intro b
    cases b with
    | nil => simp [strcmp]
    | cons y ys =>
      simp only [strcmp]
      rcases Nat.lt_trichotomy x y with h | h | h
      · simp [h, Nat.ne_of_lt h]
      · subst h
        simp [Nat.lt_irrefl, ih]
      · have hne : x ≠ y := by omega
        simp [h, Nat.lt_asymm h, hne]

theorem strcmp_trans_neg : ∀ a b c : CStr,
    strcmp a b < 0 → strcmp b c < 0 → strcmp a c < 0 := by
  intro a
  induction a with
  | nil =>
    intro b c h1 h2
    cases b with
    | nil => simp [strcmp] at h1
    | cons y ys =>
      cases c with
      | nil => simp [strcmp] at h2
      | cons z zs =>
        simp only [strcmp]
        omega
  | cons x xs ih =>
    intro b c h1 h2
    cases b with
    | nil => simp [strcmp] at h1
    | cons y ys =>
      cases c with
      | nil => simp [strcmp] at h2
      | cons z zs =>
        simp only [strcmp] at h1 h2 ⊢
        split_ifs at h1 h2 ⊢ <;> first | omega | exact ih ys zs h1 h2


theorem insertLe_perm {α : Type} (le : α → α → Bool) (x : α) :
    ∀ l : List α, List.Perm (insertLe le x l) (x :: l) := by
  intro l
  induction l with
  | nil => exact List.Perm.refl _
  | cons y ys ih =>
    cases hle : le x y with
    | true => rw [insertLe, if_pos hle]
    | false =>
      rw [insertLe, if_neg (by simp [hle])]
      exact List.Perm.trans (List.Perm.cons y ih) (List.Perm.swap x y ys)

theorem sortLe_perm {α : Type} (le : α → α → Bool) :
    ∀ l : List α, List.Perm (sortLe le l) l := by
  intro l
  induction l with
  | nil => exact List.Perm.refl _
  | cons x xs ih =>
    rw [sortLe]
    exact List.Perm.trans (insertLe_perm le x (sortLe le xs)) (List.Perm.cons x ih)

theorem pairwise_insertLe {α : Type} (R : α → α → Prop) (le : α → α → Bool) (x : α) :
    ∀ l : List α, List.Pairwise R l →
      (∀ y ∈ l, (le x y = true → R x y) ∧ (le x y = false → R y x)) →
      (∀ y ∈ l, ∀ z ∈ l, R x y → R y z → R x z) →
      List.Pairwise R (insertLe le x l) := by
  intro l
  induction l with
  | nil =>
    intro _ _ _
    exact List.pairwise_singleton R x
  | cons y ys ih =>
    intro hl hord htr
    rcases List.pairwise_cons.mp hl with ⟨hy, hys⟩
    cases hle : le x y with
    | true =>
      rw [insertLe, if_pos hle]
      refine List.pairwise_cons.mpr ⟨?_, hl⟩
      intro w hw
      rcases List.mem_cons.mp hw with hw1 | hw'
      · rw [hw1]
        exact (hord y (List.mem_cons_self _ _)).1 hle
      · exact htr y (List.mem_cons_self _ _) w (List.mem_cons_of_mem _ hw')
          ((hord y (List.mem_cons_self _ _)).1 hle) (hy w hw')
    | false =>
      rw [insertLe, if_neg (by simp [hle])]
      refine List.pairwise_cons.mpr ⟨?_, ?_⟩
      · intro w hw
        have hw2 := (insertLe_perm le x ys).mem_iff.mp hw
        rcases List.mem_cons.mp hw2 with hw1 | hw'
        · rw [hw1]
          exact (hord y (List.mem_cons_self _ _)).2 hle
        · exact hy w hw'
      · exact ih hys (fun z hz => hord z (List.mem_cons_of_mem _ hz))
          (fun z hz w hw => htr z (List.mem_cons_of_mem _ hz) w (List.mem_cons_of_mem _ hw))

theorem pairwise_sortLe {α : Type} (R : α → α → Prop) (le : α → α → Bool) :
    ∀ l : List α,
      (∀ a ∈ l, ∀ b ∈ l, (le a b = true → R a b) ∧ (le a b = false → R b a)) →
      (∀ a ∈ l, ∀ b ∈ l, ∀ c ∈ l, R a b → R b c → R a c) →
      List.Pairwise R (sortLe le l) := by
  intro l
  induction l with
  | nil =>
    intro _ _
    exact List.Pairwise.nil
  | cons x xs ih =>
    intro hord htr
    rw [sortLe]
    have hmem : ∀ y ∈ sortLe le xs, y ∈ x :: xs := fun y hy =>
      List.mem_cons_of_mem _ ((sortLe_perm le xs).mem_iff.mp hy)
    refine pairwise_insertLe R le x (sortLe le xs) ?_ ?_ ?_
    · exact ih
        (fun a ha b hb => hord a (List.mem_cons_of_mem _ ha) b (List.mem_cons_of_mem _ hb))
        (fun a ha b hb c hc => htr a (List.mem_cons_of_mem _ ha) b
          (List.mem_cons_of_mem _ hb) c (List.mem_cons_of_mem _ hc))
    · exact fun y hy => hord x (List.mem_cons_self _ _) y (hmem y hy)
    · exact fun y hy z hz => htr x (List.mem_cons_self _ _) y (hmem y hy) z (hmem z hz)

theorem q07_compare_of_small (a b : AirportMedian)
    (hb : (b.median - a.median).natAbs < 2147483648) :
    q07_airport_median_compare a b =
      if b.median = a.median then strcmp a.airport_code b.airport_code
      else b.median - a.median := by
  by_cases he : b.median = a.median
  · rw [if_pos he]
    have h0 : ((b.median - a.median) % 18446744073709551616).toNat = 0 := by omega
    show (if ((b.median - a.median) % 18446744073709551616).toNat ≠ 0
          then uint64_to_gint ((b.median - a.median) % 18446744073709551616).toNat
          else strcmp a.airport_code b.airport_code) = strcmp a.airport_code b.airport_code
    rw [h0]
    simp
  · rw [if_neg he]
    have hne0 : ((b.median - a.median) % 18446744073709551616).toNat ≠ 0 := by omega
    show (if ((b.median - a.median) % 18446744073709551616).toNat ≠ 0
          then uint64_to_gint ((b.median - a.median) % 18446744073709551616).toNat
          else strcmp a.airport_code b.airport_code) = b.median - a.median
    rw [if_pos hne0]
    simp only [uint64_to_gint]
    by_cases hpos : 0 < b.median - a.median
    · have hmod : ((b.median - a.median) % 18446744073709551616).toNat % 4294967296 =
        (b.median - a.median).toNat := by omega
      rw [hmod, if_pos (by omega)]
      omega
    · have hmod : ((b.median - a.median) % 18446744073709551616).toNat % 4294967296 =
        (b.median - a.median + 4294967296).toNat := by omega
      rw [hmod, if_neg (by omega)]
      omega


/-- C4 counterexample: a batch whose two medians differ by exactly 2^32.  The
comparator computes `crit1 = 2^32` (non-zero, so the `strcmp` tie-break is never
reached) but returns it as a 32-bit `gint`, which truncates to 0 — the two
entries compare "equal" and the sort leaves the ascending pair in place, so the
resulting statistics array is not sorted by median descending. -/
theorem q07_sort_not_spec_ordered_on_overflow :
    ¬ (q07_generate_statistics_sort
        [⟨[65], 0⟩, ⟨[66], 4294967296⟩]).Pairwise q07_spec_order := by
  intro h
  have he : q07_generate_statistics_sort [⟨[65], 0⟩, ⟨[66], 4294967296⟩] =
      [⟨[65], 0⟩, ⟨[66], 4294967296⟩] := by decide
  rw [he] at h
  have h2 := (List.pairwise_cons.mp h).1 ⟨[66], 4294967296⟩ (List.mem_cons_self _ _)
  exact absurd h2 (by decide)

/-- C4 (amended): provided every pair of medians in the batch differs by less
than 2^31 in absolute value — so that the comparator's 64-bit subtraction
truncated to a 32-bit `gint` is exact — and the airports of the batch are
pairwise distinct (as they are when the entries come from the per-airport hash
table), the statistics array produced by the final `g_array_sort` of
`__q07_generate_statistics` is sorted by median in descending order, and any two
entries with exactly equal medians are ordered by their airport identifier
string in ascending order. -/
theorem q07_statistics_sorted_without_overflow (l : List AirportMedian)
    (hbound : ∀ a ∈ l, ∀ b ∈ l, (a.median - b.median).natAbs < 2147483648)
    (hcodes : (l.map AirportMedian.airport_code).Nodup) :
    (q07_generate_statistics_sort l).Pairwise q07_spec_order := by
  have hR : List.Pairwise (fun a b => a = b ∨ q07_spec_order a b)
      (q07_generate_statistics_sort l) := by
    show List.Pairwise (fun a b => a = b ∨ q07_spec_order a b) (sortLe q07_le l)
    refine pairwise_sortLe _ q07_le l ?_ ?_
    · intro a ha b hb
      have hba : (b.median - a.median).natAbs < 2147483648 := by
        have := hbound a ha b hb
        omega
      have hab : (a.median - b.median).natAbs < 2147483648 := hbound a ha b hb
      have hc := q07_compare_of_small a b hba
      have hc' := q07_compare_of_small b a hab
      constructor
      · intro hle
        have hle' : q07_airport_median_compare a b ≤ 0 := by
          have := of_decide_eq_true hle
          exact this
        by_cases he : b.median = a.median
        · rw [hc, if_pos he] at hle'
          rcases lt_or_eq_of_le hle' with hlt | heq
          · exact Or.inr (Or.inr ⟨he.symm, hlt⟩)
          · left
            have hcode := (strcmp_eq_zero_iff _ _).mp heq
            cases a with
            | mk ca ma =>
              cases b with
              | mk cb mb => simp_all
        · rw [hc, if_neg he] at hle'
          refine Or.inr (Or.inl ?_)
          omega
      · intro hle
        have hle' : ¬ q07_airport_median_compare a b ≤ 0 := by
          intro hx
          rw [q07_le] at hle
          simp [hx] at hle
        by_cases he : b.median = a.median
        · rw [hc, if_pos he] at hle'
          refine Or.inr (Or.inr ⟨he, ?_⟩)
          rw [strcmp_swap]
          omega
        · rw [hc, if_neg he] at hle'
          refine Or.inr (Or.inl ?_)
          omega
    · intro a _ b _ c _ hab hbc
      rcases hab with rfl | hab
      · exact hbc
      rcases hbc with rfl | hbc
      · exact Or.inr hab
      right
      rcases hab with h1 | ⟨he1, hs1⟩
      · rcases hbc with h2 | ⟨he2, hs2⟩
        · exact Or.inl (lt_trans h2 h1)
        · exact Or.inl (he2 ▸ h1)
      · rcases hbc with h2 | ⟨he2, hs2⟩
        · refine Or.inl ?_
          omega
        · exact Or.inr ⟨by omega, strcmp_trans_neg _ _ _ hs1 hs2⟩
  have hperm : List.Perm (q07_generate_statistics_sort l) l := sortLe_perm q07_le l
  have hnd : ((q07_generate_statistics_sort l).map AirportMedian.airport_code).Nodup :=
    ((hperm.map AirportMedian.airport_code).nodup_iff).mpr hcodes
  have hcd : List.Pairwise (fun a b : AirportMedian => a.airport_code ≠ b.airport_code)
      (q07_generate_statistics_sort l) := by
    simpa [List.Nodup, List.pairwise_map] using hnd
  refine (hR.and hcd).imp ?_
  intro a b hb
  rcases hb.1 with rfl | h1
  · exact absurd rfl hb.2
  · exact h1

theorem q07_statistics_sorted_without_overflow_witness :
    (∀ a ∈ [(⟨[66], 5⟩ : AirportMedian), ⟨[65], 5⟩, ⟨[67], 9⟩],
      ∀ b ∈ [(⟨[66], 5⟩ : AirportMedian), ⟨[65], 5⟩, ⟨[67], 9⟩],
        (a.median - b.median).natAbs < 2147483648) ∧
    (([(⟨[66], 5⟩ : AirportMedian), ⟨[65], 5⟩, ⟨[67], 9⟩].map
      AirportMedian.airport_code).Nodup) ∧
    (q07_generate_statistics_sort
      [⟨[66], 5⟩, ⟨[65], 5⟩, ⟨[67], 9⟩]).Pairwise q07_spec_order :=
  ⟨by decide, by decide,
   q07_statistics_sorted_without_overflow [⟨[66], 5⟩, ⟨[65], 5⟩, ⟨[67], 9⟩]
     (by decide) (by decide)⟩

end LI3
